import Mathlib

/-!
Verification of the rctl resource-collection engine (package `rctl`,
file `rctl/rctl.go`).

Shallow embedding conventions:
- Go strings are modelled as `List Char` (abbreviated `Str`); Go string
  literals appear as `"...".data`.  All splitting and prefix operations used
  by the source operate on single-character separators, and are embedded as
  structural recursions on `List Char` mirroring the semantics of the Go
  `strings` package functions they translate.
- Go `int` is modelled as `Int`; `strconv.Atoi` is modelled by `goAtoi`
  (the source always discards the error result of `Atoi`, so only the
  returned value is modelled, including the clamping Go performs on range
  overflow).
- Environment inputs (the `rctl_get_racct` syscall, the process table from
  `ps.Processes()`, the contents of /etc/passwd and /etc/login.conf, the
  jail list from libjail) are oracle parameters gathered in `Env`.
  A compiled regular expression is modelled by its `FindString` function
  `find : Str → Str` (the source only ever tests
  `len(re.FindString(name)) > 0` and never inspects the match otherwise).
- Go panics (out-of-range slice indexing) are modelled by `Option`:
  a `none` result means the Go code panics.
- `logrus` `Fatal` calls terminate the process in Go (`ps.Processes()`
  failure and regex compile failure); those paths never return to the
  caller and are outside the returned-value model.
-/

/-- Go strings, as lists of characters. -/
abbrev Str := List Char

/-- Model of Go `strings.Split(s, sep)` for a one-character separator `sep`.
Like the Go function, it always returns at least one (possibly empty) field:
`strings.Split("", sep) = [""]`. -/
def splitOnChar (c : Char) : Str → List Str
  | [] => [[]]
  | x :: xs =>
    match splitOnChar c xs with
    | h :: t => if x = c then [] :: h :: t else (x :: h) :: t
    | [] => [[x]]

/-- Model of Go `strings.SplitN(s, sep, 2)` for a one-character separator:
split at the first occurrence only, so the second field may itself contain
the separator.  Returns one field when the separator does not occur. -/
def splitN2Char (c : Char) : Str → List Str
  | [] => [[]]
  | x :: xs =>
    if x = c then [[], xs]
    else
      match splitN2Char c xs with
      | h :: t => (x :: h) :: t
      | [] => [[x]]

/-- Model of Go `strings.HasPrefix(s, p)` for a one-character p. -/
def startsWithChar (c : Char) : Str → Bool
  | [] => false
  | x :: _ => x = c

/-- Model of Go `strings.Count(s, "")`: one more than the number of runes. -/
def countEmpty (s : Str) : Nat := s.length + 1

/-- Value of a list of decimal digit characters. -/
def digitsToNat (ds : Str) : Nat := ds.foldl (fun a c => 10 * a + (c.toNat - 48)) 0

/-- Value returned by Go `strconv.Atoi(s)` for a digit string (no sign),
including the clamping to the maximal 64-bit value on range error.
Syntax errors return 0 (the source discards the error). -/
def goAtoiDigits (ds : Str) : Int :=
  if ds ≠ [] ∧ ds.all Char.isDigit then
    if (digitsToNat ds : Int) > 2 ^ 63 - 1 then 2 ^ 63 - 1 else (digitsToNat ds : Int)
  else 0

/-- Value returned by Go `strconv.Atoi(s)` (the error is discarded by every
call site in the source, so only the value is modelled): optional sign, then
decimal digits; 0 on syntax error; clamped to the 64-bit range on overflow. -/
def goAtoi (s : Str) : Int :=
  match s with
  | '-' :: ds =>
    if ds ≠ [] ∧ ds.all Char.isDigit then
      if (digitsToNat ds : Int) > 2 ^ 63 then -(2 ^ 63) else -(digitsToNat ds : Int)
    else 0
  | '+' :: ds => goAtoiDigits ds
  | ds => goAtoiDigits ds

/-- Model of Go `strconv.Itoa` on the values arising here. -/
def intToStr (i : Int) : Str :=
  if i < 0 then '-' :: Nat.toDigits 10 i.natAbs else Nat.toDigits 10 i.natAbs

/-- Resource-type tag `RESRC_PROCESS` (rctl.go line 38). -/
def RESRC_PROCESS : Int := 1

/-- Resource-type tag `RESRC_USER` (rctl.go line 39). -/
def RESRC_USER : Int := 2

/-- Resource-type tag `RESRC_LOGINCLASS` (rctl.go line 40). -/
def RESRC_LOGINCLASS : Int := 3

/-- Resource-type tag `RESRC_JAIL` (rctl.go line 41). -/
def RESRC_JAIL : Int := 4

/-- The `SUPPORTED_SUBJECTS` slice (rctl.go line 34). -/
def SUPPORTED_SUBJECTS : List Str :=
  ["process".data, "user".data, "loginclass".data, "jail".data]

/-- The `Resource` structure (rctl.go lines 48-83): one sampled accounting
record.  Field names and order follow the Go declaration. -/
structure Resource where
  ResourceType : Int
  ResourceID : Str
  ProcessPPid : Int
  ProcessCmdLine : Str
  ProcessName : Str
  UserName : Str
  JailName : Str
  LoginClassName : Str
  RawResources : Str
  CPUTime : Int
  DataSize : Int
  StackSize : Int
  CoreDumpSize : Int
  MemoryUse : Int
  MemoryLocked : Int
  MaxProc : Int
  OpenFiles : Int
  VMemoryUse : Int
  PseudoTerminals : Int
  SwapUse : Int
  NThr : Int
  MsgQQueued : Int
  MsgQSize : Int
  NMsgQ : Int
  NSem : Int
  NSemop : Int
  NShm : Int
  ShmSize : Int
  WallClock : Int
  PCpu : Int
  ReadBps : Int
  WriteBps : Int
  ReadIops : Int
  WriteIops : Int
  deriving DecidableEq

/-- The Go zero value of `Resource` (`var result Resource`). -/
def Resource.zero : Resource :=
  ⟨0, [], 0, [], [], [], [], [], [],
   0, 0, 0, 0, 0, 0, 0, 0, 0, 0, 0, 0, 0, 0, 0, 0, 0, 0, 0, 0, 0, 0, 0, 0, 0⟩

/-- The four sequential subject tests of `parseResource`
(rctl.go lines 196-207), which only determine `ResourceType`. -/
def subjectType (subject : Str) : Int :=
  let t : Int := 0
  let t := if subject = "process".data then RESRC_PROCESS else t
  let t := if subject = "user".data then RESRC_USER else t
  let t := if subject = "loginclass".data then RESRC_LOGINCLASS else t
  let t := if subject = "jail".data then RESRC_JAIL else t
  t

/-- Field update `result.CPUTime = v` (rctl.go line 219). -/
def Resource.setCPUTime (r : Resource) (v : Int) : Resource := { r with CPUTime := v }

/-- Field update `result.DataSize = v` (rctl.go line 222). -/
def Resource.setDataSize (r : Resource) (v : Int) : Resource := { r with DataSize := v }

/-- Field update `result.StackSize = v` (rctl.go line 225). -/
def Resource.setStackSize (r : Resource) (v : Int) : Resource := { r with StackSize := v }

/-- Field update `result.CoreDumpSize = v` (rctl.go line 228). -/
def Resource.setCoreDumpSize (r : Resource) (v : Int) : Resource := { r with CoreDumpSize := v }

/-- Field update `result.MemoryUse = v` (rctl.go line 231). -/
def Resource.setMemoryUse (r : Resource) (v : Int) : Resource := { r with MemoryUse := v }

/-- Field update `result.MemoryLocked = v` (rctl.go line 234). -/
def Resource.setMemoryLocked (r : Resource) (v : Int) : Resource := { r with MemoryLocked := v }

/-- Field update `result.MaxProc = v` (rctl.go line 237). -/
def Resource.setMaxProc (r : Resource) (v : Int) : Resource := { r with MaxProc := v }

/-- Field update `result.OpenFiles = v` (rctl.go line 240). -/
def Resource.setOpenFiles (r : Resource) (v : Int) : Resource := { r with OpenFiles := v }

/-- Field update `result.VMemoryUse = v` (rctl.go line 243). -/
def Resource.setVMemoryUse (r : Resource) (v : Int) : Resource := { r with VMemoryUse := v }

/-- Field update `result.PseudoTerminals = v` (rctl.go line 246). -/
def Resource.setPseudoTerminals (r : Resource) (v : Int) : Resource := { r with PseudoTerminals := v }

/-- Field update `result.SwapUse = v` (rctl.go line 249). -/
def Resource.setSwapUse (r : Resource) (v : Int) : Resource := { r with SwapUse := v }

/-- Field update `result.NThr = v` (rctl.go line 252). -/
def Resource.setNThr (r : Resource) (v : Int) : Resource := { r with NThr := v }

/-- Field update `result.MsgQQueued = v` (rctl.go line 255). -/
def Resource.setMsgQQueued (r : Resource) (v : Int) : Resource := { r with MsgQQueued := v }

/-- Field update `result.MsgQSize = v` (rctl.go line 258). -/
def Resource.setMsgQSize (r : Resource) (v : Int) : Resource := { r with MsgQSize := v }

/-- Field update `result.NMsgQ = v` (rctl.go line 261). -/
def Resource.setNMsgQ (r : Resource) (v : Int) : Resource := { r with NMsgQ := v }

/-- Field update `result.NSem = v` (rctl.go line 264). -/
def Resource.setNSem (r : Resource) (v : Int) : Resource := { r with NSem := v }

/-- Field update `result.NSemop = v` (rctl.go line 267). -/
def Resource.setNSemop (r : Resource) (v : Int) : Resource := { r with NSemop := v }

/-- Field update `result.NShm = v` (rctl.go line 270). -/
def Resource.setNShm (r : Resource) (v : Int) : Resource := { r with NShm := v }

/-- Field update `result.ShmSize = v` (rctl.go line 273). -/
def Resource.setShmSize (r : Resource) (v : Int) : Resource := { r with ShmSize := v }

/-- Field update `result.WallClock = v` (rctl.go line 276). -/
def Resource.setWallClock (r : Resource) (v : Int) : Resource := { r with WallClock := v }

/-- Field update `result.PCpu = v` (rctl.go line 279). -/
def Resource.setPCpu (r : Resource) (v : Int) : Resource := { r with PCpu := v }

/-- Field update `result.ReadBps = v` (rctl.go line 282). -/
def Resource.setReadBps (r : Resource) (v : Int) : Resource := { r with ReadBps := v }

/-- Field update `result.WriteBps = v` (rctl.go line 285). -/
def Resource.setWriteBps (r : Resource) (v : Int) : Resource := { r with WriteBps := v }

/-- Field update `result.ReadIops = v` (rctl.go line 288). -/
def Resource.setReadIops (r : Resource) (v : Int) : Resource := { r with ReadIops := v }

/-- Field update `result.WriteIops = v` (rctl.go line 291). -/
def Resource.setWriteIops (r : Resource) (v : Int) : Resource := { r with WriteIops := v }

/-- The chain of 25 key tests in the body of the `parseResource` loop
(rctl.go lines 218-292): each recognised key overwrites one numeric field
with the `Atoi` of the value; unknown keys leave the record unchanged.
The tests are sequential and the key literals pairwise distinct, so at most
one branch fires. -/
def applyKV (k v : Str) (r : Resource) : Resource :=
  let r := if k = "cputime".data then r.setCPUTime (goAtoi v) else r
  let r := if k = "datasize".data then r.setDataSize (goAtoi v) else r
  let r := if k = "stacksize".data then r.setStackSize (goAtoi v) else r
  let r := if k = "coredumpsize".data then r.setCoreDumpSize (goAtoi v) else r
  let r := if k = "memoryuse".data then r.setMemoryUse (goAtoi v) else r
  let r := if k = "memorylocked".data then r.setMemoryLocked (goAtoi v) else r
  let r := if k = "maxproc".data then r.setMaxProc (goAtoi v) else r
  let r := if k = "openfiles".data then r.setOpenFiles (goAtoi v) else r
  let r := if k = "vmemoryuse".data then r.setVMemoryUse (goAtoi v) else r
  let r := if k = "pseudoterminals".data then r.setPseudoTerminals (goAtoi v) else r
  let r := if k = "swapuse".data then r.setSwapUse (goAtoi v) else r
  let r := if k = "nthr".data then r.setNThr (goAtoi v) else r
  let r := if k = "msgqqueued".data then r.setMsgQQueued (goAtoi v) else r
  let r := if k = "msgqsize".data then r.setMsgQSize (goAtoi v) else r
  let r := if k = "nmsgq".data then r.setNMsgQ (goAtoi v) else r
  let r := if k = "nsem".data then r.setNSem (goAtoi v) else r
  let r := if k = "nsemop".data then r.setNSemop (goAtoi v) else r
  let r := if k = "nshm".data then r.setNShm (goAtoi v) else r
  let r := if k = "shmsize".data then r.setShmSize (goAtoi v) else r
  let r := if k = "wallclock".data then r.setWallClock (goAtoi v) else r
  let r := if k = "pcpu".data then r.setPCpu (goAtoi v) else r
  let r := if k = "readbps".data then r.setReadBps (goAtoi v) else r
  let r := if k = "writebps".data then r.setWriteBps (goAtoi v) else r
  let r := if k = "readiops".data then r.setReadIops (goAtoi v) else r
  let r := if k = "writeiops".data then r.setWriteIops (goAtoi v) else r
  r

/-- The segment loop of `parseResource` (rctl.go lines 213-293): each
segment is split on `=`; a segment that does not split into exactly two
parts makes the function return the record accumulated so far. -/
def parseFields : List Str → Resource → Resource
  | [], r => r
  | seg :: rest, r =>
    match splitOnChar '=' seg with
    | [k, v] => parseFields rest (applyKV k v r)
    | _ => r

/-- Function `parseResource` (rctl.go lines 193-296): sets `ResourceType` from the
subject, saves the raw string verbatim in `RawResources`, then parses the
comma-separated `key=value` segments. -/
def parseResource (subject resrc : Str) : Resource :=
  parseFields (splitOnChar ',' resrc)
    { Resource.zero with ResourceType := subjectType subject, RawResources := resrc }

/-- Error values returned (as Go `error`) by the engine:
`config` is the `errors.New("subject not supported")` of `checkSubject`;
`kernel` is a nonzero errno from the `rctl_get_racct` syscall
(rctl.go line 179, e.g. 78 when accounting is disabled);
`source` is a read error from /etc/passwd or /etc/login.conf. -/
inductive RErr where
  | config : Str → RErr
  | kernel : Nat → RErr
  | source : Nat → RErr
  deriving DecidableEq

/-- Function `checkSubject` (rctl.go lines 148-158): split the rule on every colon
and accept it when the first field is one of the supported subjects. -/
def checkSubject (rule : Str) : Except Str Str :=
  match splitOnChar ':' rule with
  | s0 :: _ =>
    if SUPPORTED_SUBJECTS.contains s0 then Except.ok s0
    else Except.error "subject not supported".data
  | [] => Except.error "subject not supported".data

/-- The index `i` left by the terminator-scanning loop of `rctlGetRacct`
(rctl.go lines 182-187): `for i, _ = range _out { if _out[i] == 0 { break } }`.
The loop breaks at the first zero byte; when no byte is zero, `i` is left at
the final index `len - 1`, not at `len`. -/
def goTrimLen : List (UInt8) → Nat
  | [] => 0
  | [_] => 0
  | b :: c :: rest => if b = 0 then 0 else 1 + goTrimLen (c :: rest)

/-- The buffer-to-string step `string(_out[0:i])` of `rctlGetRacct`
(rctl.go line 189) applied to the filled buffer. -/
def racctTrim (buf : List (UInt8)) : List (UInt8) := buf.take (goTrimLen buf)

/-- Function `rctlGetRacct` (rctl.go lines 162-190) at the byte level.  The kernel
syscall is an oracle producing the errno `e1` and the filled 1024-byte
buffer `_out`; a nonzero errno is returned as an error (the accompanying
raw buffer is discarded by every caller), otherwise the buffer is trimmed
by the terminator scan. -/
def rctlGetRacct (kernel : Str → Nat × List (UInt8)) (rule : Str) :
    Except Nat (List (UInt8)) :=
  let out := kernel rule
  if out.1 ≠ 0 then Except.error out.1 else Except.ok (racctTrim out.2)

/-- Function `getResourceUsage` (rctl.go lines 311-329): validate the subject, query
the kernel accounting oracle (the already-trimmed result of `rctlGetRacct`),
and parse the raw string.  `racct rule` is the oracle for the outcome of
`rctlGetRacct(rule)`. -/
def getResourceUsage (racct : Str → Except Nat Str) (rule : Str) :
    Except RErr Resource :=
  match checkSubject rule with
  | Except.error e => Except.error (RErr.config e)
  | Except.ok subject =>
    match racct rule with
    | Except.error e1 => Except.error (RErr.kernel e1)
    | Except.ok buf => Except.ok (parseResource subject buf)

/-- The `user` struct (rctl.go lines 92-95). -/
structure user where
  name : Str
  uid : Int
  deriving DecidableEq

/-- The `jail` struct (rctl.go lines 97-100). -/
structure jail where
  name : Str
  jid : Int
  deriving DecidableEq

/-- One process entry of the `ps.Processes()` table (go-ps), with the four
accessors used by the source: `Pid()`, `PPid()`, `Executable()`,
`CommandLine()`. -/
structure Process where
  pid : Int
  ppid : Int
  executable : Str
  commandLine : Str
  deriving DecidableEq

/-- The line loop of `getUsersFromPasswd` (rctl.go lines 378-390) over the
lines of /etc/passwd, with the accumulated user slice.  A `none` result is
the Go panic raised by the unguarded `s[2]` index when a non-blank,
non-comment line has fewer than three colon-separated fields.  The guards
`len(s) > 0` and `strings.Count(s[0], "") > 0` are translated verbatim
(both always hold). -/
def usersLoop : List Str → List user → Option (List user)
  | [], acc => some acc
  | line :: rest, acc =>
    if line.length > 0 ∧ ¬ startsWithChar '#' line then
      let s := splitOnChar ':' line
      if s.length > 0 then
        if countEmpty (s.headD []) > 0 then
          match s.get? 2 with
          | none => none
          | some uidStr => usersLoop rest (acc ++ [⟨s.headD [], goAtoi uidStr⟩])
        else usersLoop rest acc
      else usersLoop rest acc
    else usersLoop rest acc

/-- Function `getUsersFromPasswd` (rctl.go lines 370-393) applied to the contents of
/etc/passwd; `none` is a panic. -/
def getUsersFromPasswd (data : Str) : Option (List user) :=
  usersLoop (splitOnChar '\n' data) []

/-- The line loop of `getLoginClasses` (rctl.go lines 522-531) over the
lines of /etc/login.conf: keep lines that are non-empty, do not start with
the character '#', do not start with the character ' ', and split on colons
into exactly two fields; the class is the part of the first field before
any vertical bar. -/
def classLoop : List Str → List Str → List Str
  | [], acc => acc
  | line :: rest, acc =>
    if line.length > 0 ∧ ¬ startsWithChar '#' line ∧ ¬ startsWithChar ' ' line then
      let s := splitOnChar ':' line
      if s.length = 2 then
        classLoop rest (acc ++ [(splitOnChar '|' (s.headD [])).headD []])
      else classLoop rest acc
    else classLoop rest acc

/-- Function `getLoginClasses` (rctl.go lines 515-534) applied to the contents of
/etc/login.conf. -/
def getLoginClasses (data : Str) : List Str :=
  classLoop (splitOnChar '\n' data) []

/-- The candidate loop of `getProcessResources` (rctl.go lines 350-365):
for every process whose command line gives `re.FindString` a non-empty
match, query `subject:pid:` and attach the process identity fields.
On a query error the accumulated slice and the error are returned. -/
def processLoop (racct : Str → Except Nat Str) (find : Str → Str)
    (subject : Str) : List Process → List Resource → List Resource × Option RErr
  | [], acc => (acc, none)
  | p :: rest, acc =>
    if (find p.commandLine).length > 0 then
      match getResourceUsage racct (subject ++ [':'] ++ intToStr p.pid ++ [':']) with
      | Except.error e => (acc, some e)
      | Except.ok r =>
        processLoop racct find subject rest
          (acc ++ [{ r with
            ResourceID := intToStr p.pid,
            ProcessPPid := p.ppid,
            ProcessName := p.executable,
            ProcessCmdLine := p.commandLine }])
    else processLoop racct find subject rest acc

/-- The candidate loop of `getUserResources` (rctl.go lines 407-421):
for every user whose name matches, query `subject:uid:` and attach the
user identity fields. -/
def userLoop (racct : Str → Except Nat Str) (find : Str → Str)
    (subject : Str) : List user → List Resource → List Resource × Option RErr
  | [], acc => (acc, none)
  | u :: rest, acc =>
    if (find u.name).length > 0 then
      match getResourceUsage racct (subject ++ [':'] ++ intToStr u.uid ++ [':']) with
      | Except.error e => (acc, some e)
      | Except.ok r =>
        userLoop racct find subject rest
          (acc ++ [{ r with ResourceID := intToStr u.uid, UserName := u.name }])
    else userLoop racct find subject rest acc

/-- The candidate loop of `getJailResources` (rctl.go lines 495-509):
for every jail whose name matches, query `subject:name` (no trailing colon)
and attach the jail identity fields. -/
def jailLoop (racct : Str → Except Nat Str) (find : Str → Str)
    (subject : Str) : List jail → List Resource → List Resource × Option RErr
  | [], acc => (acc, none)
  | jl :: rest, acc =>
    if (find jl.name).length > 0 then
      match getResourceUsage racct (subject ++ [':'] ++ jl.name) with
      | Except.error e => (acc, some e)
      | Except.ok r =>
        jailLoop racct find subject rest
          (acc ++ [{ r with ResourceID := intToStr jl.jid, JailName := jl.name }])
    else jailLoop racct find subject rest acc

/-- The candidate loop of `getLoginClassResources` (rctl.go lines 549-563):
for every enumerated login class whose name matches, query `subject:class`
(no trailing colon) and attach the class name (the `ResourceID` assignment
is commented out in the source). -/
def classResLoop (racct : Str → Except Nat Str) (find : Str → Str)
    (subject : Str) : List Str → List Resource → List Resource × Option RErr
  | [], acc => (acc, none)
  | lc :: rest, acc =>
    if (find lc).length > 0 then
      match getResourceUsage racct (subject ++ [':'] ++ lc) with
      | Except.error e => (acc, some e)
      | Except.ok r =>
        classResLoop racct find subject rest (acc ++ [{ r with LoginClassName := lc }])
    else classResLoop racct find subject rest acc

/-- The environment a `Refresh` call runs against:
`racct rule` is the outcome of `rctlGetRacct(rule)` (errno or the trimmed
raw accounting string); `find pat name` is `re.FindString(name)` for the
compiled pattern `pat`; `procs` is the `ps.Processes()` table (a failure
of `ps.Processes()` is `GLog.Fatal`, which terminates the process and never
returns); `passwd` and `loginConf` are the `ioutil.ReadFile` outcomes for
/etc/passwd and /etc/login.conf; `jails` is the libjail enumeration of
`getJails` (whose `err` is never set in the source). -/
structure Env where
  racct : Str → Except Nat Str
  find : Str → Str → Str
  procs : List Process
  passwd : Except Nat Str
  loginConf : Except Nat Str
  jails : List jail

/-- Function `getProcessResources` (rctl.go lines 332-367) under an environment. -/
def getProcessResources (env : Env) (subject filter : Str) :
    List Resource × Option RErr :=
  processLoop env.racct (env.find filter) subject env.procs []

/-- Function `getUserResources` (rctl.go lines 395-424) under an environment.
A `none` result is the panic of `getUsersFromPasswd` (see `usersLoop`). -/
def getUserResources (env : Env) (subject filter : Str) :
    Option (List Resource × Option RErr) :=
  match env.passwd with
  | Except.error e => some ([], some (RErr.source e))
  | Except.ok data =>
    match getUsersFromPasswd data with
    | none => none
    | some usrs => some (userLoop env.racct (env.find filter) subject usrs [])

/-- Function `getJailResources` (rctl.go lines 483-512) under an environment. -/
def getJailResources (env : Env) (subject filter : Str) :
    List Resource × Option RErr :=
  jailLoop env.racct (env.find filter) subject env.jails []

/-- Function `getLoginClassResources` (rctl.go lines 537-566) under an environment. -/
def getLoginClassResources (env : Env) (subject filter : Str) :
    List Resource × Option RErr :=
  match env.loginConf with
  | Except.error e => ([], some (RErr.source e))
  | Except.ok data =>
    classResLoop env.racct (env.find filter) subject (getLoginClasses data) []

/-- The `ResourceMgr` structure (rctl.go lines 86-90); the logger field is
omitted (it carries no program state the engine reads). -/
structure ResourceMgr where
  resrcesfilter : List Str
  Resources : List Resource
  deriving DecidableEq

/-- The rule loop of `Refresh` (rctl.go lines 110-140): each rule is split
on the first colon into subject and filter (an out-of-range panic, `none`,
when the rule has no colon), dispatched on the four supported subjects, and
any error is returned at once, discarding the partial slice of that rule
but keeping none of it in the committed result.  A rule with any other
subject falls through the if/else chain and is skipped silently. -/
def refreshLoop (env : Env) : List Str → List Resource →
    Option (Except RErr (List Resource))
  | [], results => some (Except.ok results)
  | rf :: rest, results =>
    match splitN2Char ':' rf with
    | subject :: filter :: _ =>
      if subject = "process".data then
        match getProcessResources env subject filter with
        | (_, some e) => some (Except.error e)
        | (res, none) => refreshLoop env rest (results ++ res)
      else if subject = "user".data then
        match getUserResources env subject filter with
        | none => none
        | some (_, some e) => some (Except.error e)
        | some (res, none) => refreshLoop env rest (results ++ res)
      else if subject = "loginclass".data then
        match getLoginClassResources env subject filter with
        | (_, some e) => some (Except.error e)
        | (res, none) => refreshLoop env rest (results ++ res)
      else if subject = "jail".data then
        match getJailResources env subject filter with
        | (_, some e) => some (Except.error e)
        | (res, none) => refreshLoop env rest (results ++ res)
      else refreshLoop env rest results
    | _ => none

/-- Function `Refresh` (rctl.go lines 103-145): run the rule loop; on an error the
manager is returned unchanged together with the error; on success the
freshly built result list replaces the `Resources` snapshot and the
returned error is nil (the outer `err` variable is never assigned, every
loop-local error is `:=`-shadowed).  A `none` result is a panic of the
loop body. -/
def Refresh (env : Env) (mgr : ResourceMgr) : Option (ResourceMgr × Option RErr) :=
  match refreshLoop env mgr.resrcesfilter [] with
  | none => none
  | some (Except.error e) => some (mgr, some e)
  | some (Except.ok results) => some ({ mgr with Resources := results }, none)

/-- The per-line yield of the `getLoginClasses` loop, as a single optional
value: the class produced by a line, if any (conditions exactly as in
rctl.go lines 523-526). -/
def classLine (line : Str) : Option Str :=
  if line.length > 0 ∧ ¬ startsWithChar '#' line ∧ ¬ startsWithChar ' ' line then
    if (splitOnChar ':' line).length = 2 then
      some ((splitOnChar '|' ((splitOnChar ':' line).headD [])).headD [])
    else none
  else none

/-- The login-class enumeration as the specification sentence states it
(C8): one class per line that is non-blank, does not start with the
character '#', and does not start with whitespace; the class name is the
portion before any vertical-bar alias separator of the first
colon-delimited field.  This definition follows the words of the spec, for
comparison with `getLoginClasses`. -/
def specLoginClasses (data : Str) : List Str :=
  (splitOnChar '\n' data).filterMap fun line =>
    if line.length > 0 ∧ ¬ startsWithChar '#' line ∧ ¬ (line.headD ' ').isWhitespace then
      some ((splitOnChar '|' ((splitOnChar ':' line).headD [])).headD [])
    else none

/-- A kernel-accounting oracle that answers every query with the empty
trimmed string. -/
def racct0 : Str → Except Nat Str := fun _ => Except.ok []

/-- A kernel-accounting oracle on which every query fails with errno 78
(accounting disabled). -/
def racctFail : Str → Except Nat Str := fun _ => Except.error 78

/-- A match oracle whose `FindString` returns its whole argument (as a
compiled match-everything pattern does on every name). -/
def find0 : Str → Str := fun s => s

/-- A one-process process table. -/
def procs0 : List Process := [⟨1, 0, "sh".data, "sh".data⟩]

/-- A concrete environment on which every kernel query fails with errno 78
and one jail named j1 exists. -/
def envW : Env :=
  { racct := racctFail
    find := fun _ name => name
    procs := []
    passwd := Except.ok "root:x:0:".data
    loginConf := Except.ok []
    jails := [⟨"j1".data, 1⟩] }

theorem splitOnChar_ne_nil (c : Char) (s : Str) : splitOnChar c s ≠ [] := by
  cases s with
  | nil => simp [splitOnChar]
  | cons x xs =>
    rw [splitOnChar]
    cases h : splitOnChar c xs with
    | nil => simp
    | cons h t =>
      by_cases hx : x = c <;> simp [hx]

theorem splitN2Char_ne_nil (c : Char) (s : Str) : splitN2Char c s ≠ [] := by
  cases s with
  | nil => simp [splitN2Char]
  | cons x xs =>
    rw [splitN2Char]
    by_cases hx : x = c
    · simp [hx]
    · rw [if_neg hx]
      cases h : splitN2Char c xs with
      | nil => simp
      | cons h t => simp

theorem head_splitN2_eq_head_split (c : Char) (s : Str) :
    (splitN2Char c s).headD [] = (splitOnChar c s).headD [] := by
  induction s with
  | nil => rfl
  | cons x xs ih =>
    rw [splitN2Char, splitOnChar]
    by_cases hx : x = c
    · rw [if_pos hx]
      cases h : splitOnChar c xs with
      | nil => exact absurd h (splitOnChar_ne_nil c xs)
      | cons a t => simp [hx]
    · rw [if_neg hx]
      cases h2 : splitN2Char c xs with
      | nil => exact absurd h2 (splitN2Char_ne_nil c xs)
      | cons a2 t2 =>
        cases h : splitOnChar c xs with
        | nil => exact absurd h (splitOnChar_ne_nil c xs)
        | cons a t =>
          have := ih
          rw [h2, h] at this
          simp at this
          simp [hx, this]

theorem applyKV_RawResources (k v : Str) (r : Resource) :
    (applyKV k v r).RawResources = r.RawResources := by
  cases r
  simp [applyKV, apply_ite Resource.RawResources, ite_self,
    Resource.setCPUTime, Resource.setDataSize, Resource.setStackSize,
    Resource.setCoreDumpSize, Resource.setMemoryUse, Resource.setMemoryLocked,
    Resource.setMaxProc, Resource.setOpenFiles, Resource.setVMemoryUse,
    Resource.setPseudoTerminals, Resource.setSwapUse, Resource.setNThr,
    Resource.setMsgQQueued, Resource.setMsgQSize, Resource.setNMsgQ,
    Resource.setNSem, Resource.setNSemop, Resource.setNShm,
    Resource.setShmSize, Resource.setWallClock, Resource.setPCpu,
    Resource.setReadBps, Resource.setWriteBps, Resource.setReadIops,
    Resource.setWriteIops]

theorem parseFields_RawResources (segs : List Str) (r : Resource) :
    (parseFields segs r).RawResources = r.RawResources := by
  induction segs generalizing r with
  | nil => rfl
  | cons seg rest ih =>
    rw [parseFields]
    cases h : splitOnChar '=' seg with
    | nil => rfl
    | cons a t =>
      cases t with
      | nil => rfl
      | cons b t2 =>
        cases t2 with
        | nil => rw [ih, applyKV_RawResources]
        | cons d t3 => rfl

/-- C7: for every subject and every raw input string, the record returned
by `parseResource` carries the full input verbatim in `RawResources`,
however many segments parsed and even when parsing aborted at a malformed
segment. -/
theorem c7_raw_resources_verbatim (subject resrc : Str) :
    (parseResource subject resrc).RawResources = resrc := by
  unfold parseResource
  rw [parseFields_RawResources]

/-- C4: parsing the raw string cputime=120,memoryuse=4096,wallclock=600
yields CPUTime 120, MemoryUse 4096, WallClock 600, every other numeric
usage field zero (the record differs from the zero record only in those
three fields, the subject tag and the raw string), and RawResources equal
to the input verbatim. -/
theorem c4_parse_round_trip (subject : Str) :
    parseResource subject "cputime=120,memoryuse=4096,wallclock=600".data =
    { Resource.zero with
      ResourceType := subjectType subject,
      RawResources := "cputime=120,memoryuse=4096,wallclock=600".data,
      CPUTime := 120,
      MemoryUse := 4096,
      WallClock := 600 } := rfl

theorem parseFields_cons (seg : Str) (rest : List Str) (r : Resource) :
    parseFields (seg :: rest) r =
      match splitOnChar '=' seg with
      | [k, v] => parseFields rest (applyKV k v r)
      | _ => r := rfl

/-- C5: a comma segment that does not split into exactly two parts aborts
parsing of the remaining segments and the record accumulated so far is
returned (not discarded, not an error); in particular
cputime=120,badsegment,memoryuse=99 yields CPUTime 120 and MemoryUse 0. -/
theorem c5_malformed_segment_keeps_partial :
    (∀ (r : Resource) (pre : List Str) (bad : Str) (rest : List Str),
        (∀ seg ∈ pre, (splitOnChar '=' seg).length = 2) →
        (splitOnChar '=' bad).length ≠ 2 →
        parseFields (pre ++ bad :: rest) r = parseFields pre r)
  ∧ ∀ subject, parseResource subject "cputime=120,badsegment,memoryuse=99".data =
      { Resource.zero with
        ResourceType := subjectType subject,
        RawResources := "cputime=120,badsegment,memoryuse=99".data,
        CPUTime := 120 } := by
  constructor
  · intro r pre bad rest hpre hbad
    induction pre generalizing r with
    | nil =>
      simp only [List.nil_append]
      rw [parseFields_cons]
      cases h : splitOnChar '=' bad with
      | nil => rfl
      | cons a t =>
        cases t with
        | nil => rfl
        | cons b t2 =>
          cases t2 with
          | nil => rw [h] at hbad; simp at hbad
          | cons d t3 => rfl
    | cons s pre ih =>
      have hs := hpre s (List.mem_cons_self s pre)
      simp only [List.cons_append]
      rw [parseFields_cons, parseFields_cons]
      cases h : splitOnChar '=' s with
      | nil => simp [h] at hs
      | cons a t =>
        cases t with
        | nil => simp [h] at hs
        | cons b t2 =>
          cases t2 with
          | nil => exact ih _ (fun seg hseg => hpre seg (List.mem_cons_of_mem s hseg))
          | cons d t3 => simp [h] at hs
  · intro subject
    rfl

theorem c5_witness :
    parseFields (["cputime=120".data] ++ "badsegment".data :: ["memoryuse=99".data])
      Resource.zero = parseFields ["cputime=120".data] Resource.zero :=
  c5_malformed_segment_keeps_partial.1 Resource.zero ["cputime=120".data]
    "badsegment".data ["memoryuse=99".data] (by decide) (by decide)

/-- C6 counterexample: the segment cputime=5=x contains an equals sign but
does not split into exactly two parts, and the parser treats it as
malformed: in cputime=5=x,memoryuse=7 the later well-formed segment is
dropped (MemoryUse stays 0), while without the extra equals sign it is
parsed (MemoryUse 7).  This refutes the claim that a segment containing an
equals sign is split at the first one only and never treated as
malformed. -/
theorem c6_counterexample :
    (splitOnChar '=' "cputime=5=x".data).length ≠ 2
  ∧ (parseResource "process".data "cputime=5=x,memoryuse=7".data).MemoryUse = 0
  ∧ (parseResource "process".data "cputime=5,memoryuse=7".data).MemoryUse = 7 :=
  ⟨by decide, rfl, rfl⟩

/-- C6 as amended: the parser splits each segment on every equals sign and
accepts it only when that yields exactly two parts, key and value (so a
value may not itself contain an equals sign); any other segment — no equals
sign or more than one — is treated as malformed and returns the record
accumulated so far, aborting the remaining segments. -/
theorem c6_segment_split (seg : Str) (rest : List Str) (r : Resource) :
    (∀ k v, splitOnChar '=' seg = [k, v] →
        parseFields (seg :: rest) r = parseFields rest (applyKV k v r))
  ∧ ((splitOnChar '=' seg).length ≠ 2 → parseFields (seg :: rest) r = r) := by
  constructor
  · intro k v hkv
    rw [parseFields_cons, hkv]
  · intro hlen
    rw [parseFields_cons]
    cases h : splitOnChar '=' seg with
    | nil => rfl
    | cons a t =>
      cases t with
      | nil => rfl
      | cons b t2 =>
        cases t2 with
        | nil => rw [h] at hlen; simp at hlen
        | cons d t3 => rfl

theorem c6_witness :
    (parseFields ("cputime=120".data :: ["a".data]) Resource.zero =
      parseFields ["a".data] (applyKV "cputime".data "120".data Resource.zero))
  ∧ parseFields ["badsegment".data] Resource.zero = Resource.zero :=
  ⟨(c6_segment_split "cputime=120".data ["a".data] Resource.zero).1
      "cputime".data "120".data (by decide),
   (c6_segment_split "badsegment".data [] Resource.zero).2 (by decide)⟩

/-- C9 counterexample helper: on an all-ones buffer of length n+1 the
terminator scan leaves the index at n, not n+1. -/
theorem goTrimLen_replicate_one (n : Nat) :
    goTrimLen (List.replicate (n + 1) (1 : UInt8)) = n := by
  induction n with
  | zero => rfl
  | succ m ih =>
    rw [List.replicate_succ, List.replicate_succ, goTrimLen, if_neg (by decide),
      ← List.replicate_succ, ih, Nat.add_comm]

/-- C9 counterexample: a 1024-byte buffer containing no zero byte is not
returned whole on a successful query; the trimmed string is its first 1023
bytes, dropping the final byte.  This refutes the claim that the whole
buffer is returned when it contains no terminator. -/
theorem c9_counterexample :
    (0 : UInt8) ∉ List.replicate 1024 (1 : UInt8)
  ∧ rctlGetRacct (fun _ => (0, List.replicate 1024 (1 : UInt8))) "jail:j1".data =
      Except.ok (List.replicate 1023 (1 : UInt8))
  ∧ List.replicate 1023 (1 : UInt8) ≠ List.replicate 1024 (1 : UInt8) := by
  refine ⟨?_, ?_, ?_⟩
  · intro hc
    rw [List.mem_replicate] at hc
    exact absurd hc.2 (by decide)
  · show Except.ok (racctTrim (List.replicate 1024 (1 : UInt8))) =
      Except.ok (List.replicate 1023 (1 : UInt8))
    rw [racctTrim]
    have h1024 : (1024 : Nat) = 1023 + 1 := by norm_num
    rw [h1024, goTrimLen_replicate_one, List.take_replicate,
      Nat.min_eq_left (by norm_num)]
  · intro h
    have hl := congrArg List.length h
    rw [List.length_replicate, List.length_replicate] at hl
    omega

/-- C9 as amended: on a successful kernel query the string handed
downstream is the prefix of the result buffer up to (and excluding) the
first zero byte when the buffer contains one; when the buffer contains no
zero byte, the scan index stops at the last position and the first
len - 1 bytes are handed downstream (the final byte is dropped), not the
whole buffer. -/
theorem c9_trim_closed_form (buf : List UInt8) :
    racctTrim buf =
      if (0 : UInt8) ∈ buf then buf.takeWhile (fun b => b != 0) else buf.dropLast := by
  induction buf with
  | nil => rfl
  | cons b t ih =>
    cases t with
    | nil =>
      by_cases hb : b = (0 : UInt8)
      · subst hb; rfl
      · have hnm : (0 : UInt8) ∉ [b] := fun h => hb (List.mem_singleton.mp h).symm
        rw [racctTrim, goTrimLen, if_neg hnm]
        rfl
    | cons c rest =>
      by_cases hb : b = (0 : UInt8)
      · subst hb
        rw [racctTrim, goTrimLen, if_pos rfl]
        rw [if_pos (List.mem_cons_self 0 (c :: rest))]
        simp [List.takeWhile_cons]
      · have hbne : (b != 0) = true := by simpa using hb
        rw [racctTrim, goTrimLen, if_neg hb, Nat.add_comm, List.take_succ_cons]
        by_cases hm : (0 : UInt8) ∈ c :: rest
        · rw [if_pos (List.mem_cons_of_mem b hm)]
          rw [List.takeWhile_cons]
          simp only [hbne, if_true]
          rw [racctTrim] at ih
          rw [ih, if_pos hm]
        · have hnm : (0 : UInt8) ∉ b :: c :: rest := by
            intro hc
            rcases List.mem_cons.mp hc with h1 | h2
            · exact hb h1.symm
            · exact hm h2
          rw [if_neg hnm]
          rw [racctTrim] at ih
          rw [ih, if_neg hm]
          rfl

theorem usersLoop_eq_none_iff (lines : List Str) (acc : List user) :
    usersLoop lines acc = none ↔
      ∃ line ∈ lines, line.length > 0 ∧ ¬ startsWithChar '#' line ∧
        (splitOnChar ':' line).length < 3 := by
  induction lines generalizing acc with
  | nil => simp [usersLoop]
  | cons line rest ih =>
    simp only [usersLoop]
    by_cases hq : line.length > 0 ∧ ¬ startsWithChar '#' line
    · rw [if_pos hq]
      have hs : (splitOnChar ':' line).length > 0 :=
        List.length_pos.mpr (splitOnChar_ne_nil ':' line)
      have hc : countEmpty ((splitOnChar ':' line).headD []) > 0 := Nat.succ_pos _
      rw [if_pos hs, if_pos hc]
      cases hg : (splitOnChar ':' line).get? 2 with
      | none =>
        have hshort : (splitOnChar ':' line).length ≤ 2 := List.get?_eq_none.mp hg
        refine iff_of_true rfl
          ⟨line, List.mem_cons_self line rest, hq.1, hq.2, by omega⟩
      | some uidStr =>
        have hlong : 2 < (splitOnChar ':' line).length := by
          by_contra hcon
          rw [List.get?_eq_none.mpr (by omega)] at hg
          exact Option.noConfusion hg
        rw [ih]
        constructor
        · rintro ⟨l, hl, hp⟩
          exact ⟨l, List.mem_cons_of_mem line hl, hp⟩
        · rintro ⟨l, hl, hp⟩
          rcases List.mem_cons.mp hl with h1 | h2
          · subst h1
            omega
          · exact ⟨l, h2, hp⟩
    · rw [if_neg hq]
      rw [ih]
      constructor
      · rintro ⟨l, hl, hp⟩
        exact ⟨l, List.mem_cons_of_mem line hl, hp⟩
      · rintro ⟨l, hl, hp⟩
        rcases List.mem_cons.mp hl with h1 | h2
        · subst h1
          exact absurd ⟨hp.1, hp.2.1⟩ hq
        · exact ⟨l, h2, hp⟩

/-- C10: user enumeration from the account database panics (out-of-range
index on the unguarded field access s[2]) exactly when some non-blank line
not starting with the character '#' has fewer than three colon-delimited
fields; on such content `getUsersFromPasswd` does not return an error, it
panics. -/
theorem c10_passwd_panic_iff (data : Str) :
    getUsersFromPasswd data = none ↔
      ∃ line ∈ splitOnChar '\n' data, line.length > 0 ∧ ¬ startsWithChar '#' line ∧
        (splitOnChar ':' line).length < 3 :=
  usersLoop_eq_none_iff (splitOnChar '\n' data) []

theorem c10_witness : getUsersFromPasswd "a:b".data = none :=
  (c10_passwd_panic_iff "a:b".data).mpr
    ⟨"a:b".data, by decide, by decide, by decide, by decide⟩

theorem classLoop_eq_filterMap (lines : List Str) (acc : List Str) :
    classLoop lines acc = acc ++ lines.filterMap classLine := by
  induction lines generalizing acc with
  | nil => simp [classLoop]
  | cons line rest ih =>
    simp only [classLoop]
    by_cases hq : line.length > 0 ∧ ¬ startsWithChar '#' line ∧ ¬ startsWithChar ' ' line
    · rw [if_pos hq]
      by_cases h2 : (splitOnChar ':' line).length = 2
      · rw [if_pos h2, ih]
        have hcl : classLine line =
            some ((splitOnChar '|' ((splitOnChar ':' line).headD [])).headD []) := by
          rw [classLine, if_pos hq, if_pos h2]
        simp [hcl, List.filterMap_cons]
      · rw [if_neg h2, ih]
        have hcl : classLine line = none := by
          rw [classLine, if_pos hq, if_neg h2]
        simp [hcl, List.filterMap_cons]
    · rw [if_neg hq, ih]
      have hcl : classLine line = none := by
        rw [classLine, if_neg hq]
      simp [hcl, List.filterMap_cons]

/-- C8 counterexample: on the file content a:b:c followed by a tab-indented
line, the claimed enumeration (skip lines starting with any whitespace,
yield every other non-blank non-comment line) produces the class a, but the
code produces the single class consisting of the tab-indented first field:
the code additionally requires exactly two colon-delimited fields (so a:b:c
yields nothing) and only skips lines starting with a space character (so a
tab-initial line is kept). -/
theorem c8_counterexample :
    getLoginClasses "a:b:c\n\tx:y".data = ["\tx".data]
  ∧ specLoginClasses "a:b:c\n\tx:y".data = ["a".data] := by
  constructor
  · decide
  · decide

/-- C8 as amended: the enumerator yields one class per line that is
non-blank, does not start with the character '#', does not start with the
character ' ' (a tab-initial continuation line is not skipped), and splits
on colons into exactly two fields; the class name is the portion before any
vertical-bar alias separator of the first colon-delimited field.  This is
exactly the per-line yield `classLine`. -/
theorem c8_login_class_enumeration (data : Str) :
    getLoginClasses data = (splitOnChar '\n' data).filterMap classLine := by
  rw [getLoginClasses, classLoop_eq_filterMap, List.nil_append]

/-- C1: whenever `Refresh` returns an error — any enumerator read failure
or any per-candidate kernel-query failure, under every environment — the
manager is returned unchanged: the `Resources` snapshot still holds the
previous snapshot, because the loop returns before the assignment
`r.Resources = results` and the partially built list is never committed;
the snapshot is replaced only on the no-error path. -/
theorem c1_refresh_error_preserves_snapshot (env : Env) (mgr out : ResourceMgr)
    (e : RErr) (h : Refresh env mgr = some (out, some e)) :
    out = mgr ∧ out.Resources = mgr.Resources := by
  unfold Refresh at h
  cases hr : refreshLoop env mgr.resrcesfilter [] with
  | none =>
    rw [hr] at h
    exact Option.noConfusion h
  | some exc =>
    cases exc with
    | error e2 =>
      rw [hr] at h
      simp only [Option.some.injEq, Prod.mk.injEq] at h
      exact ⟨h.1.symm, by rw [h.1]⟩
    | ok results =>
      rw [hr] at h
      simp only [Option.some.injEq, Prod.mk.injEq] at h
      exact Option.noConfusion h.2

theorem c1_witness :
    (⟨["jail:j".data], [Resource.zero]⟩ : ResourceMgr) =
      ⟨["jail:j".data], [Resource.zero]⟩
  ∧ (⟨["jail:j".data], [Resource.zero]⟩ : ResourceMgr).Resources =
      (⟨["jail:j".data], [Resource.zero]⟩ : ResourceMgr).Resources :=
  c1_refresh_error_preserves_snapshot envW ⟨["jail:j".data], [Resource.zero]⟩
    ⟨["jail:j".data], [Resource.zero]⟩ (RErr.kernel 78) (by decide)

/-- C2 counterexample: a manager holding only the rule container:foo is
refreshed without any error — the rule is silently skipped, the empty
result list is committed, and no configuration error is reported, although
the environment used here fails every kernel query (so any issued kernel
call would have surfaced as an error).  This refutes the claim that such a
rule fails with a subject-not-supported configuration error. -/
theorem c2_counterexample :
    Refresh envW ⟨["container:foo".data], [Resource.zero]⟩ =
      some (⟨["container:foo".data], []⟩, none) := by decide

/-- C2 as amended: a rule whose subject token is not one of the four
supported subjects is silently skipped by the `Refresh` rule loop — under
every environment (hence independently of the kernel oracle: no kernel
accounting call can influence the outcome) a manager holding just that rule
refreshes successfully, commits the empty snapshot, and reports no error;
the static membership check `checkSubject` does reject the rule with
subject not supported, but the `Refresh` dispatch never consults it for an
unsupported subject. -/
theorem c2_unsupported_subject_skipped (env : Env) (rs : List Resource)
    (rule subject filter : Str)
    (hsplit : splitN2Char ':' rule = [subject, filter])
    (hns : subject ∉ SUPPORTED_SUBJECTS) :
    Refresh env ⟨[rule], rs⟩ = some (⟨[rule], []⟩, none)
  ∧ checkSubject rule = Except.error "subject not supported".data := by
  have hp : subject ≠ "process".data := fun h => hns (by rw [h]; decide)
  have hu : subject ≠ "user".data := fun h => hns (by rw [h]; decide)
  have hl : subject ≠ "loginclass".data := fun h => hns (by rw [h]; decide)
  have hj : subject ≠ "jail".data := fun h => hns (by rw [h]; decide)
  constructor
  · have h1 : refreshLoop env [rule] [] = some (Except.ok []) := by
      rw [refreshLoop, hsplit]
      dsimp only
      rw [if_neg hp, if_neg hu, if_neg hl, if_neg hj]
      rfl
    simp only [Refresh]
    rw [h1]
  · rw [checkSubject]
    cases hsp : splitOnChar ':' rule with
    | nil => exact absurd hsp (splitOnChar_ne_nil ':' rule)
    | cons s0 t =>
      have hhead : s0 = subject := by
        have hh := head_splitN2_eq_head_split ':' rule
        rw [hsplit, hsp] at hh
        simpa using hh.symm
      subst hhead
      have hcont : ¬ (SUPPORTED_SUBJECTS.contains s0 = true) := by simpa using hns
      dsimp only
      rw [if_neg hcont]

theorem c2_witness :
    Refresh envW ⟨["container:foo".data], []⟩ = some (⟨["container:foo".data], []⟩, none)
  ∧ checkSubject "container:foo".data = Except.error "subject not supported".data :=
  c2_unsupported_subject_skipped envW [] "container:foo".data "container".data
    "foo".data (by decide) (by decide)

theorem processLoop_mem (racct : Str → Except Nat Str) (find : Str → Str)
    (subject : Str) (ps : List Process) (acc : List Resource) (r : Resource)
    (h : r ∈ (processLoop racct find subject ps acc).1) :
    r ∈ acc ∨ (find r.ProcessCmdLine).length > 0 := by
  induction ps generalizing acc with
  | nil =>
    exact Or.inl h
  | cons p rest ih =>
    rw [processLoop] at h
    by_cases hf : (find p.commandLine).length > 0
    · rw [if_pos hf] at h
      cases hg : getResourceUsage racct (subject ++ [':'] ++ intToStr p.pid ++ [':']) with
      | error e =>
        rw [hg] at h
        exact Or.inl h
      | ok r0 =>
        rw [hg] at h
        rcases ih _ h with h1 | h2
        · rcases List.mem_append.mp h1 with h3 | h4
          · exact Or.inl h3
          · right
            rw [List.mem_singleton.mp h4]
            exact hf
        · exact Or.inr h2
    · rw [if_neg hf] at h
      exact ih _ h

theorem userLoop_mem (racct : Str → Except Nat Str) (find : Str → Str)
    (subject : Str) (us : List user) (acc : List Resource) (r : Resource)
    (h : r ∈ (userLoop racct find subject us acc).1) :
    r ∈ acc ∨ (find r.UserName).length > 0 := by
  induction us generalizing acc with
  | nil =>
    exact Or.inl h
  | cons u rest ih =>
    rw [userLoop] at h
    by_cases hf : (find u.name).length > 0
    · rw [if_pos hf] at h
      cases hg : getResourceUsage racct (subject ++ [':'] ++ intToStr u.uid ++ [':']) with
      | error e =>
        rw [hg] at h
        exact Or.inl h
      | ok r0 =>
        rw [hg] at h
        rcases ih _ h with h1 | h2
        · rcases List.mem_append.mp h1 with h3 | h4
          · exact Or.inl h3
          · right
            rw [List.mem_singleton.mp h4]
            exact hf
        · exact Or.inr h2
    · rw [if_neg hf] at h
      exact ih _ h

theorem jailLoop_mem (racct : Str → Except Nat Str) (find : Str → Str)
    (subject : Str) (js : List jail) (acc : List Resource) (r : Resource)
    (h : r ∈ (jailLoop racct find subject js acc).1) :
    r ∈ acc ∨ (find r.JailName).length > 0 := by
  induction js generalizing acc with
  | nil =>
    exact Or.inl h
  | cons jl rest ih =>
    rw [jailLoop] at h
    by_cases hf : (find jl.name).length > 0
    · rw [if_pos hf] at h
      cases hg : getResourceUsage racct (subject ++ [':'] ++ jl.name) with
      | error e =>
        rw [hg] at h
        exact Or.inl h
      | ok r0 =>
        rw [hg] at h
        rcases ih _ h with h1 | h2
        · rcases List.mem_append.mp h1 with h3 | h4
          · exact Or.inl h3
          · right
            rw [List.mem_singleton.mp h4]
            exact hf
        · exact Or.inr h2
    · rw [if_neg hf] at h
      exact ih _ h

theorem classResLoop_mem (racct : Str → Except Nat Str) (find : Str → Str)
    (subject : Str) (cs : List Str) (acc : List Resource) (r : Resource)
    (h : r ∈ (classResLoop racct find subject cs acc).1) :
    r ∈ acc ∨ (find r.LoginClassName).length > 0 := by
  induction cs generalizing acc with
  | nil =>
    exact Or.inl h
  | cons lc rest ih =>
    rw [classResLoop] at h
    by_cases hf : (find lc).length > 0
    · rw [if_pos hf] at h
      cases hg : getResourceUsage racct (subject ++ [':'] ++ lc) with
      | error e =>
        rw [hg] at h
        exact Or.inl h
      | ok r0 =>
        rw [hg] at h
        rcases ih _ h with h1 | h2
        · rcases List.mem_append.mp h1 with h3 | h4
          · exact Or.inl h3
          · right
            rw [List.mem_singleton.mp h4]
            exact hf
        · exact Or.inr h2
    · rw [if_neg hf] at h
      exact ih _ h

/-- C3: every record contributed by a rule of each of the four subject
kinds carries a name attribute (command line, user name, jail name, class
name) on which the FindString of the compiled pattern returns a non-empty
match; candidates whose name does not match contribute no record (the
record lists here are built starting from the empty accumulator, as in the
source loops). -/
theorem c3_snapshot_records_match_filter (racct : Str → Except Nat Str)
    (find : Str → Str) (subject : Str) :
    (∀ ps r, r ∈ (processLoop racct find subject ps []).1 →
        (find r.ProcessCmdLine).length > 0)
  ∧ (∀ us r, r ∈ (userLoop racct find subject us []).1 →
        (find r.UserName).length > 0)
  ∧ (∀ js r, r ∈ (jailLoop racct find subject js []).1 →
        (find r.JailName).length > 0)
  ∧ (∀ cs r, r ∈ (classResLoop racct find subject cs []).1 →
        (find r.LoginClassName).length > 0) := by
  refine ⟨fun ps r h => ?_, fun us r h => ?_, fun js r h => ?_, fun cs r h => ?_⟩
  · rcases processLoop_mem racct find subject ps [] r h with h1 | h2
    · exact absurd h1 (List.not_mem_nil r)
    · exact h2
  · rcases userLoop_mem racct find subject us [] r h with h1 | h2
    · exact absurd h1 (List.not_mem_nil r)
    · exact h2
  · rcases jailLoop_mem racct find subject js [] r h with h1 | h2
    · exact absurd h1 (List.not_mem_nil r)
    · exact h2
  · rcases classResLoop_mem racct find subject cs [] r h with h1 | h2
    · exact absurd h1 (List.not_mem_nil r)
    · exact h2

theorem c3_witness :
    (find0 (((processLoop racct0 find0 "process".data procs0 []).1.headD
      Resource.zero).ProcessCmdLine)).length > 0 :=
  (c3_snapshot_records_match_filter racct0 find0 "process".data).1 procs0
    ((processLoop racct0 find0 "process".data procs0 []).1.headD Resource.zero)
    (by decide)
